import Mathlib

/-!
Verification of `sunpy/data/data_manager/cache.py` (class `Cache`).

The embedding models the cache's observable collaborators explicitly:

* the Storage Provider is a list of `CacheEntry` records supporting
  `store` (append), `find_by_key` (first exact match) and `delete_by_key`
  (remove every match), as the spec's interface says;
* the filesystem is the list of paths that currently exist;
* the Downloader together with the filename helpers (`get_filename`,
  `replacement_filename`, `hash_file`) is abstracted by `Env.fetch`,
  which for each URL either yields the destination path and content hash
  of a completed download, or fails (any exception in the inner
  `download` closure of `_download_and_hash`);
* `os.remove` and `storage.delete_by_key` may fail (an `OSError` or a
  provider fault); `Env.removeOk` / `Env.deleteOk` say whether they do;
* the ghost counters `attempts` / `successes` record how often the inner
  download closure was entered and how often it completed, so that
  "the Downloader is never invoked" is a statement of the model.

Python exceptions do not roll back side effects, so every operation
returns its `Except` result together with the state it leaves behind.
Timestamps (`datetime.now()`, the stored isoformat `time`) are modelled
as integers; the expiry `TimeDelta`-or-`None` as `Option Int`.
-/

set_option autoImplicit false

namespace SunpyCache

/-- A record held by the Storage Provider: `file_hash`, `file_path`,
`url` and `time` exactly as written by `Cache.download`. -/
structure CacheEntry where
  file_hash : String
  file_path : String
  url : String
  time : Int
deriving Repr, DecidableEq

/-- The Storage Provider's contents, in insertion order. -/
abbrev Storage := List CacheEntry

/-- `storage.find_by_key('url', v)`: first entry whose `url` equals `v`. -/
def find_by_key_url (s : Storage) (v : String) : Option CacheEntry :=
  s.find? (fun e => e.url = v)

/-- `storage.find_by_key('file_hash', v)`: first entry whose `file_hash`
equals `v`. -/
def find_by_key_hash (s : Storage) (v : String) : Option CacheEntry :=
  s.find? (fun e => e.file_hash = v)

/-- `storage.delete_by_key('url', v)`: remove the record(s) whose `url`
equals `v`. -/
def delete_by_key_url (s : Storage) (v : String) : Storage :=
  s.filter (fun e => e.url ≠ v)

/-- `Cache.get_by_hash`: returns the details matched by hash if present. -/
def get_by_hash (s : Storage) (sha_hash : String) : Option CacheEntry :=
  find_by_key_hash s sha_hash

/-- `Cache._get_by_url`: returns the details matched by url if present. -/
def _get_by_url (s : Storage) (url : String) : Option CacheEntry :=
  find_by_key_url s url

/-- The lookup loop at the head of `Cache.download`:
`for url in urls: details = self._get_by_url(url); if details: break`. -/
def lookupFirst (s : Storage) : List String → Option CacheEntry
  | [] => none
  | u :: rest =>
    match _get_by_url s u with
    | some e => some e
    | none => lookupFirst s rest

/-- The faults `Cache.download` can propagate: an `OSError` from
`os.remove`, a Storage Provider fault from `delete_by_key`, and the
`RuntimeError("Download failed")` raised when every mirror fails. -/
inductive Err where
  | removeFailed (path : String)
  | storageDeleteFailed (url : String)
  | downloadFailed
deriving Repr, DecidableEq

/-- External behaviour: what each URL's download attempt produces, and
whether file/entry deletion succeeds. -/
structure Env where
  fetch : String → Option (String × String)
  removeOk : String → Bool
  deleteOk : String → Bool

/-- Observable state threaded through a call: Storage Provider contents,
existing files, warnings issued so far (one per failed mirror, recording
its URL), and the ghost Downloader counters. -/
structure CacheState where
  storage : Storage
  fs : List String
  warnings : List String
  attempts : Nat
  successes : Nat
deriving Repr, DecidableEq

/-- `os.remove(p)`: deletes the file, or raises when the file is absent
or the filesystem faults. -/
def osRemove (env : Env) (fs : List String) (p : String) :
    Except Err (List String) :=
  if p ∈ fs ∧ env.removeOk p then .ok (fs.filter (· ≠ p))
  else .error (.removeFailed p)

/-- `storage.delete_by_key('url', v)` as a fallible operation. -/
def storageDelete (env : Env) (s : Storage) (v : String) :
    Except Err Storage :=
  if env.deleteOk v then .ok (delete_by_key_url s v)
  else .error (.storageDeleteFailed v)

/-- `Cache._download_and_hash(urls)`: try each URL in order with the
inner `download` closure; on success return `(path, shahash, url)` at
once, on failure `warn(e, SunpyUserWarning)` and continue; after the
loop raise `RuntimeError("Download failed")`. A completed download puts
its path on the filesystem. -/
def _download_and_hash (env : Env) :
    List String → CacheState → Except Err (String × String × String) × CacheState
  | [], st => (.error .downloadFailed, st)
  | u :: rest, st =>
    match env.fetch u with
    | some (path, shahash) =>
      (.ok (path, shahash, u),
       { st with fs := st.fs ++ [path],
                 attempts := st.attempts + 1,
                 successes := st.successes + 1 })
    | none =>
      _download_and_hash env rest
        { st with warnings := st.warnings ++ [u], attempts := st.attempts + 1 }

/-- The tail of `Cache.download` past the cache-consultation block:
`file_path, file_hash, url = self._download_and_hash(urls)` followed by
`self._storage.store({...})` when `redownload` is false. -/
def downloadAndStore (env : Env) (now : Int) (urls : List String)
    (st : CacheState) : Except Err String × CacheState :=
  match _download_and_hash env urls st with
  | (.ok (p, h, u), st') =>
    (.ok p, { st' with storage := st'.storage ++
        [{ file_hash := h, file_path := p, url := u, time := now }] })
  | (.error e, st') => (.error e, st')

/-- Whether `self._expiry and datetime.now() - datetime.fromisoformat(
details['time']) > self._expiry` holds: `none` models `expiry=None`. -/
def isStale (expiry : Option Int) (now time : Int) : Bool :=
  match expiry with
  | none => false
  | some d => now - time > d

namespace Cache

/-- `Cache.download(urls, redownload)` on a list of URLs (after the
`isinstance(urls, str)` normalisation). Returns the path or the
propagated exception, together with the state the call leaves behind. -/
def download (env : Env) (now : Int) (expiry : Option Int)
    (urls : List String) (redownload : Bool) (st : CacheState) :
    Except Err String × CacheState :=
  if redownload then
    match _download_and_hash env urls st with
    | (.ok (p, _, _), st') => (.ok p, st')
    | (.error e, st') => (.error e, st')
  else
    match lookupFirst st.storage urls with
    | some details =>
      if isStale expiry now details.time then
        match osRemove env st.fs details.file_path with
        | .error e => (.error e, st)
        | .ok fs' =>
          match storageDelete env st.storage details.url with
          | .error e => (.error e, { st with fs := fs' })
          | .ok s' =>
            downloadAndStore env now urls { st with fs := fs', storage := s' }
      else
        (.ok details.file_path, st)
    | none => downloadAndStore env now urls st

end Cache

/-- The public argument of `download`: a single URL string or a list. -/
inductive UrlsArg where
  | single (s : String)
  | many (l : List String)

/-- `if isinstance(urls, str): urls = [urls]`. -/
def normalizeUrls : UrlsArg → List String
  | .single s => [s]
  | .many l => l

/-- `Cache.download` as called from outside, before normalisation. -/
def downloadArg (env : Env) (now : Int) (expiry : Option Int)
    (arg : UrlsArg) (redownload : Bool) (st : CacheState) :
    Except Err String × CacheState :=
  Cache.download env now expiry (normalizeUrls arg) redownload st

/-! Concrete data used by the witness theorems. -/

/-- Environment in which every download attempt fails. -/
def envNone : Env :=
  { fetch := fun _ => none, removeOk := fun _ => true, deleteOk := fun _ => true }

/-- Environment in which only `"b"` downloads, to `"pb"` with hash `"hb"`. -/
def envB : Env :=
  { fetch := fun u => if u = "b" then some ("pb", "hb") else none,
    removeOk := fun _ => true, deleteOk := fun _ => true }

/-- Environment in which only `"u"` downloads, to `"p"` with hash `"h2"`. -/
def envUP : Env :=
  { fetch := fun u => if u = "u" then some ("p", "h2") else none,
    removeOk := fun _ => true, deleteOk := fun _ => true }

/-- Environment in which only `"u"` downloads, to `"p2"` with hash `"h2"`. -/
def envUP2 : Env :=
  { fetch := fun u => if u = "u" then some ("p2", "h2") else none,
    removeOk := fun _ => true, deleteOk := fun _ => true }

/-- Environment whose Storage Provider deletions always fault. -/
def envDel : Env :=
  { fetch := fun _ => none, removeOk := fun _ => true, deleteOk := fun _ => false }

/-- The empty cache state. -/
def st0 : CacheState :=
  { storage := [], fs := [], warnings := [], attempts := 0, successes := 0 }

/-- An entry for `"urlA"` fetched at time 0, file at `"path1"`. -/
def entW1 : CacheEntry :=
  { file_hash := "hash1", file_path := "path1", url := "urlA", time := 0 }

/-- State holding `entW1` with its backing file present. -/
def stW1 : CacheState :=
  { storage := [entW1], fs := ["path1"], warnings := [], attempts := 0,
    successes := 0 }

/-- An entry for `"u"` fetched at time 0, file at `"p"`. -/
def entC2 : CacheEntry :=
  { file_hash := "h1", file_path := "p", url := "u", time := 0 }

/-- State holding `entC2` with its backing file present. -/
def stC2 : CacheState :=
  { storage := [entC2], fs := ["p"], warnings := [], attempts := 0,
    successes := 0 }

/-- State mid-way through a stale-hit call under `envUP2`: the state
`_download_and_hash` leaves after `entC2` was evicted and `"u"` was
downloaded to `"p2"`. -/
def stMidC2 : CacheState :=
  { storage := [], fs := ["p2"], warnings := [], attempts := 1, successes := 1 }

/-- State after a first successful download of `"u"` at time 0 under
`envUP` starting from `st0`. -/
def stAfterU : CacheState :=
  { storage := [{ file_hash := "h2", file_path := "p", url := "u", time := 0 }],
    fs := ["p"], warnings := [], attempts := 1, successes := 1 }

/-! Helper lemmas about the lookup loop and the fallback loop. -/

theorem lookupFirst_cons (s : Storage) (u : String) (rest : List String) :
    lookupFirst s (u :: rest) =
      match _get_by_url s u with
      | some e => some e
      | none => lookupFirst s rest := rfl

theorem lookupFirst_eq_some {s : Storage} {urls : List String} {e : CacheEntry}
    (h : lookupFirst s urls = some e) :
    ∃ pre u post, urls = pre ++ u :: post ∧
      (∀ v ∈ pre, _get_by_url s v = none) ∧ _get_by_url s u = some e := by
  induction urls with
  | nil => simp [lookupFirst] at h
  | cons u rest ih =>
    cases hq : _get_by_url s u with
    | some e' =>
      have he : e' = e := by
        have := h
        rw [lookupFirst_cons, hq] at this
        simpa using this
      exact ⟨[], u, rest, rfl, by simp, by rw [hq, he]⟩
    | none =>
      have h' : lookupFirst s rest = some e := by
        have := h
        rwa [lookupFirst_cons, hq] at this
      obtain ⟨pre, u', post, h1, h2, h3⟩ := ih h'
      refine ⟨u :: pre, u', post, by simp [h1], ?_, h3⟩
      intro v hv
      rcases List.mem_cons.mp hv with rfl | hv
      · exact hq
      · exact h2 v hv

theorem get_by_url_spec {s : Storage} {u : String} {e : CacheEntry}
    (h : _get_by_url s u = some e) : e ∈ s ∧ e.url = u := by
  have hm := List.mem_of_find?_eq_some h
  have hp := List.find?_some h
  simp at hp
  exact ⟨hm, hp⟩

theorem lookupFirst_mem {s : Storage} {urls : List String} {e : CacheEntry}
    (h : lookupFirst s urls = some e) : e ∈ s ∧ e.url ∈ urls := by
  obtain ⟨pre, u, post, hurls, _, hu⟩ := lookupFirst_eq_some h
  obtain ⟨hm, hurl⟩ := get_by_url_spec hu
  exact ⟨hm, by rw [hurls, hurl]; simp⟩

theorem lookupFirst_none_iff {s : Storage} {urls : List String} :
    lookupFirst s urls = none ↔ ∀ u ∈ urls, _get_by_url s u = none := by
  induction urls with
  | nil => simp [lookupFirst]
  | cons u rest ih =>
    cases hq : _get_by_url s u with
    | some e => simp [lookupFirst_cons, hq]
    | none => simp [lookupFirst_cons, hq, ih]

theorem lookupFirst_append_of_none {s : Storage} {urls : List String}
    {e : CacheEntry} (hnone : lookupFirst s urls = none)
    (hmem : e.url ∈ urls) : lookupFirst (s ++ [e]) urls = some e := by
  induction urls with
  | nil => cases hmem
  | cons u rest ih =>
    have hu : _get_by_url s u = none :=
      (lookupFirst_none_iff.mp hnone) u (List.mem_cons_self u rest)
    have hrest : lookupFirst s rest = none := by
      rw [lookupFirst_none_iff]
      intro v hv
      exact (lookupFirst_none_iff.mp hnone) v (List.mem_cons_of_mem u hv)
    by_cases hcase : e.url = u
    · have : _get_by_url (s ++ [e]) u = some e := by
        unfold _get_by_url find_by_key_url at hu ⊢
        rw [List.find?_append, hu]
        simp [hcase]
      rw [lookupFirst_cons, this]
    · have : _get_by_url (s ++ [e]) u = none := by
        unfold _get_by_url find_by_key_url at hu ⊢
        rw [List.find?_append, hu]
        simp [hcase]
      rw [lookupFirst_cons, this]
      exact ih hrest (by rcases List.mem_cons.mp hmem with h | h; exact absurd h hcase; exact h)

theorem dlh_nil (env : Env) (st : CacheState) :
    _download_and_hash env [] st = (.error .downloadFailed, st) := rfl

theorem dlh_cons_ok (env : Env) (u : String) (rest : List String)
    (st : CacheState) (p h : String) (hu : env.fetch u = some (p, h)) :
    _download_and_hash env (u :: rest) st =
      (.ok (p, h, u),
       { st with fs := st.fs ++ [p], attempts := st.attempts + 1,
                 successes := st.successes + 1 }) := by
  rw [_download_and_hash, hu]

theorem dlh_cons_fail (env : Env) (u : String) (rest : List String)
    (st : CacheState) (hu : env.fetch u = none) :
    _download_and_hash env (u :: rest) st =
      _download_and_hash env rest
        { st with warnings := st.warnings ++ [u],
                  attempts := st.attempts + 1 } := by
  rw [_download_and_hash, hu]

theorem dlh_all_fail (env : Env) (urls : List String) (st : CacheState)
    (hfail : ∀ v ∈ urls, env.fetch v = none) :
    _download_and_hash env urls st =
      (.error .downloadFailed,
       { st with warnings := st.warnings ++ urls,
                 attempts := st.attempts + urls.length }) := by
  induction urls generalizing st with
  | nil => simp [dlh_nil]
  | cons u rest ih =>
    rw [dlh_cons_fail env u rest st (hfail u (List.mem_cons_self u rest))]
    rw [ih _ (fun v hv => hfail v (List.mem_cons_of_mem u hv))]
    simp
    omega

theorem dlh_success (env : Env) (pre : List String) (u : String)
    (rest : List String) (p h : String) (st : CacheState)
    (hpre : ∀ v ∈ pre, env.fetch v = none)
    (hu : env.fetch u = some (p, h)) :
    _download_and_hash env (pre ++ u :: rest) st =
      (.ok (p, h, u),
       { st with fs := st.fs ++ [p],
                 warnings := st.warnings ++ pre,
                 attempts := st.attempts + pre.length + 1,
                 successes := st.successes + 1 }) := by
  induction pre generalizing st with
  | nil => simpa using dlh_cons_ok env u rest st p h hu
  | cons v vs ih =>
    rw [List.cons_append,
        dlh_cons_fail env v (vs ++ u :: rest) st (hpre v (List.mem_cons_self v vs))]
    rw [ih _ (fun w hw => hpre w (List.mem_cons_of_mem v hw))]
    simp
    omega

theorem dlh_ok_inv {env : Env} {urls : List String} {st st' : CacheState}
    {p h u : String}
    (hok : _download_and_hash env urls st = (.ok (p, h, u), st')) :
    ∃ pre rest, urls = pre ++ u :: rest ∧ (∀ v ∈ pre, env.fetch v = none) ∧
      env.fetch u = some (p, h) ∧
      st' = { st with fs := st.fs ++ [p],
                      warnings := st.warnings ++ pre,
                      attempts := st.attempts + pre.length + 1,
                      successes := st.successes + 1 } := by
  induction urls generalizing st with
  | nil => simp [dlh_nil] at hok
  | cons v rest ih =>
    cases hv : env.fetch v with
    | some pr =>
      rcases pr with ⟨p', h'⟩
      rw [dlh_cons_ok env v rest st p' h' hv] at hok
      have he := congrArg Prod.fst hok
      have hst := congrArg Prod.snd hok
      simp at he hst
      obtain ⟨hp, hh, hu⟩ := he
      subst hp; subst hh; subst hu
      exact ⟨[], rest, rfl, by simp, hv, by simp [hst.symm]⟩
    | none =>
      rw [dlh_cons_fail env v rest st hv] at hok
      obtain ⟨pre, rest', h1, h2, h3, h4⟩ := ih hok
      refine ⟨v :: pre, rest', by simp [h1], ?_, h3, ?_⟩
      · intro w hw
        rcases List.mem_cons.mp hw with rfl | hw
        · exact hv
        · exact h2 w hw
      · rw [h4]
        simp
        omega

theorem dlh_err_inv {env : Env} {urls : List String} {st st' : CacheState}
    {e : Err} (herr : _download_and_hash env urls st = (.error e, st')) :
    e = .downloadFailed ∧ (∀ v ∈ urls, env.fetch v = none) ∧
      st' = { st with warnings := st.warnings ++ urls,
                      attempts := st.attempts + urls.length } := by
  induction urls generalizing st with
  | nil =>
    rw [dlh_nil] at herr
    have h1 := congrArg Prod.fst herr
    have h2 := congrArg Prod.snd herr
    simp at h1 h2
    exact ⟨h1.symm, by simp, by simp [h2.symm]⟩
  | cons v rest ih =>
    cases hv : env.fetch v with
    | some pr =>
      rcases pr with ⟨p', h'⟩
      rw [dlh_cons_ok env v rest st p' h' hv] at herr
      simp at herr
    | none =>
      rw [dlh_cons_fail env v rest st hv] at herr
      obtain ⟨h1, h2, h3⟩ := ih herr
      refine ⟨h1, ?_, ?_⟩
      · intro w hw
        rcases List.mem_cons.mp hw with rfl | hw
        · exact hv
        · exact h2 w hw
      · rw [h3]
        simp
        omega

theorem dlh_storage_set (env : Env) (urls : List String) (st : CacheState)
    (s : Storage) :
    _download_and_hash env urls { st with storage := s } =
      ((_download_and_hash env urls st).1,
       { (_download_and_hash env urls st).2 with storage := s }) := by
  induction urls generalizing st with
  | nil => simp [dlh_nil]
  | cons u rest ih =>
    cases hu : env.fetch u with
    | some pr =>
      rcases pr with ⟨p, h⟩
      rw [dlh_cons_ok env u rest _ p h hu, dlh_cons_ok env u rest st p h hu]
    | none =>
      rw [dlh_cons_fail env u rest _ hu, dlh_cons_fail env u rest st hu]
      exact ih { st with warnings := st.warnings ++ [u],
                         attempts := st.attempts + 1 }

theorem dlh_storage_unchanged (env : Env) (urls : List String)
    (st : CacheState) :
    (_download_and_hash env urls st).2.storage = st.storage := by
  induction urls generalizing st with
  | nil => simp [dlh_nil]
  | cons u rest ih =>
    cases hu : env.fetch u with
    | some pr =>
      rcases pr with ⟨p, h⟩
      rw [dlh_cons_ok env u rest st p h hu]
    | none =>
      rw [dlh_cons_fail env u rest st hu]
      exact ih _

theorem dlh_attempts_le (env : Env) (urls : List String) (st : CacheState) :
    st.attempts ≤ (_download_and_hash env urls st).2.attempts := by
  induction urls generalizing st with
  | nil => simp [dlh_nil]
  | cons u rest ih =>
    cases hu : env.fetch u with
    | some pr =>
      rcases pr with ⟨p, h⟩
      rw [dlh_cons_ok env u rest st p h hu]
      simp
    | none =>
      rw [dlh_cons_fail env u rest st hu]
      calc st.attempts ≤ st.attempts + 1 := Nat.le_succ _
        _ ≤ _ := ih { st with warnings := st.warnings ++ [u],
                              attempts := st.attempts + 1 }

theorem dlh_attempts_lt (env : Env) (u : String) (rest : List String)
    (st : CacheState) :
    st.attempts < (_download_and_hash env (u :: rest) st).2.attempts := by
  cases hu : env.fetch u with
  | some pr =>
    rcases pr with ⟨p, h⟩
    rw [dlh_cons_ok env u rest st p h hu]
    simp
  | none =>
    rw [dlh_cons_fail env u rest st hu]
    calc st.attempts < st.attempts + 1 := Nat.lt_succ_self _
      _ ≤ _ := dlh_attempts_le env rest
                 { st with warnings := st.warnings ++ [u],
                           attempts := st.attempts + 1 }

theorem download_true_eq (env : Env) (now : Int) (expiry : Option Int)
    (urls : List String) (st : CacheState) :
    Cache.download env now expiry urls true st =
      ((_download_and_hash env urls st).1.map (fun t => t.1),
       (_download_and_hash env urls st).2) := by
  rw [Cache.download]
  rcases hd : _download_and_hash env urls st with ⟨res, st'⟩
  cases res with
  | ok t => rcases t with ⟨p, h, u⟩; simp [Except.map]
  | error e => simp [Except.map]

theorem dls_ok_inv {env : Env} {now : Int} {urls : List String}
    {st st' : CacheState} {p : String}
    (hok : downloadAndStore env now urls st = (.ok p, st')) :
    ∃ h u pre rest, urls = pre ++ u :: rest ∧
      (∀ v ∈ pre, env.fetch v = none) ∧ env.fetch u = some (p, h) ∧
      st' = { st with
        storage := st.storage ++
          [{ file_hash := h, file_path := p, url := u, time := now }],
        fs := st.fs ++ [p],
        warnings := st.warnings ++ pre,
        attempts := st.attempts + pre.length + 1,
        successes := st.successes + 1 } := by
  rw [downloadAndStore] at hok
  rcases hd : _download_and_hash env urls st with ⟨res, stx⟩
  rw [hd] at hok
  cases res with
  | error e => simp at hok
  | ok t =>
    rcases t with ⟨p', h, u⟩
    have h1 := congrArg Prod.fst hok
    have h2 := congrArg Prod.snd hok
    simp at h1 h2
    subst h1
    obtain ⟨pre, rest, hurls, hpre, hu, hstx⟩ := dlh_ok_inv hd
    refine ⟨h, u, pre, rest, hurls, hpre, hu, ?_⟩
    rw [← h2, hstx]

/-! The claim theorems. -/

/-- C1: with `redownload = false`, the cache is consulted by scanning the
candidate URLs in order and taking the first Storage Provider entry keyed
by one of them; when that entry is not expired (in particular whenever
the configured expiry is `None`, `isStale` is `false`), its `file_path`
is returned immediately and the whole state — including the Downloader
invocation counter — is left untouched, so the Downloader is never
invoked. The entry's `url` is one of the candidate URLs and every
candidate scanned before it had no Storage Provider entry. -/
theorem download_fresh_hit_returns_cached (env : Env) (now : Int)
    (expiry : Option Int) (urls : List String) (st : CacheState)
    (e : CacheEntry)
    (hfound : lookupFirst st.storage urls = some e)
    (hfresh : isStale expiry now e.time = false) :
    Cache.download env now expiry urls false st = (.ok e.file_path, st)
    ∧ e ∈ st.storage
    ∧ ∃ pre post, urls = pre ++ e.url :: post ∧
        ∀ v ∈ pre, _get_by_url st.storage v = none := by
  refine ⟨?_, (lookupFirst_mem hfound).1, ?_⟩
  · rw [Cache.download]
    simp [hfound, hfresh]
  · obtain ⟨pre, u, post, h1, h2, h3⟩ := lookupFirst_eq_some hfound
    obtain ⟨_, hurl⟩ := get_by_url_spec h3
    exact ⟨pre, post, by rw [h1, hurl], h2⟩

/-- Witness for C1: a fresh hit for `"urlA"` is served from the cache. -/
theorem download_fresh_hit_returns_cached_witness :
    Cache.download envNone 5 (some 10) ["urlA"] false stW1 =
      (.ok "path1", stW1) :=
  (download_fresh_hit_returns_cached envNone 5 (some 10) ["urlA"] stW1 entW1
    (by decide) (by decide)).1

/-- C3: the fallback loop tries the candidates in the supplied order; the
first success returns `(path, hash, url)` at once (the result does not
depend on the URLs after the successful one), each failed mirror produced
one non-fatal warning, and the persisted entry's `url` field is the URL
that succeeded. -/
theorem download_mirror_fallback (env : Env) (now : Int)
    (expiry : Option Int) (pre : List String) (u : String)
    (rest : List String) (p h : String) (st : CacheState)
    (hpre : ∀ v ∈ pre, env.fetch v = none)
    (hu : env.fetch u = some (p, h))
    (hmiss : lookupFirst st.storage (pre ++ u :: rest) = none) :
    Cache.download env now expiry (pre ++ u :: rest) false st =
      (.ok p,
       { st with
         storage := st.storage ++
           [{ file_hash := h, file_path := p, url := u, time := now }],
         fs := st.fs ++ [p],
         warnings := st.warnings ++ pre,
         attempts := st.attempts + pre.length + 1,
         successes := st.successes + 1 }) := by
  rw [Cache.download]
  simp only [Bool.false_eq_true, if_false, hmiss]
  rw [downloadAndStore, dlh_success env pre u rest p h st hpre hu]

/-- Witness for C3: `"a"` fails, `"b"` succeeds, `"c"` is never tried. -/
theorem download_mirror_fallback_witness :
    Cache.download envB 7 (some 10) ["a", "b", "c"] false st0 =
      (.ok "pb",
       { storage := [{ file_hash := "hb", file_path := "pb", url := "b",
                       time := 7 }],
         fs := ["pb"], warnings := ["a"], attempts := 2, successes := 1 }) :=
  download_mirror_fallback envB 7 (some 10) ["a"] "b" ["c"] "pb" "hb" st0
    (by decide) (by decide) (by decide)

/-- C4: for every call in which the candidate URLs are attempted and all
fail — a redownload, a call with no cache hit, or a call whose stale hit
is successfully evicted first (when eviction itself faults the mirrors
are never attempted and C9 applies) — the call raises the single
`RuntimeError("Download failed")`, an `Err` value distinct from the
per-URL warnings, which are all recorded; no path is returned, no
download completes, and the final Storage Provider contents are a
sublist of the initial ones: no `CacheEntry` is written. -/
theorem download_all_mirrors_exhausted (env : Env) (now : Int)
    (expiry : Option Int) (urls : List String) (redownload : Bool)
    (st : CacheState)
    (hfail : ∀ v ∈ urls, env.fetch v = none)
    (hreach : redownload = true ∨ lookupFirst st.storage urls = none
      ∨ ∃ e, lookupFirst st.storage urls = some e
          ∧ isStale expiry now e.time = true
          ∧ e.file_path ∈ st.fs ∧ env.removeOk e.file_path = true
          ∧ env.deleteOk e.url = true) :
    ∃ s' fs', List.Sublist s' st.storage ∧
      Cache.download env now expiry urls redownload st =
        (.error .downloadFailed,
         { st with storage := s', fs := fs',
                   warnings := st.warnings ++ urls,
                   attempts := st.attempts + urls.length }) := by
  have hdl := dlh_all_fail env urls st hfail
  rcases hreach with rfl | hmiss | ⟨e, hfound, hstale, hfile, hrm, hdel⟩
  · refine ⟨st.storage, st.fs, List.Sublist.refl _, ?_⟩
    rw [download_true_eq, hdl]
    simp [Except.map]
  · cases redownload with
    | true =>
      refine ⟨st.storage, st.fs, List.Sublist.refl _, ?_⟩
      rw [download_true_eq, hdl]
      simp [Except.map]
    | false =>
      refine ⟨st.storage, st.fs, List.Sublist.refl _, ?_⟩
      rw [Cache.download]
      simp only [Bool.false_eq_true, if_false, hmiss]
      rw [downloadAndStore, hdl]
  · cases redownload with
    | true =>
      refine ⟨st.storage, st.fs, List.Sublist.refl _, ?_⟩
      rw [download_true_eq, hdl]
      simp [Except.map]
    | false =>
      refine ⟨delete_by_key_url st.storage e.url,
              st.fs.filter (· ≠ e.file_path), List.filter_sublist _, ?_⟩
      have hrm' : osRemove env st.fs e.file_path =
          .ok (st.fs.filter (· ≠ e.file_path)) := by
        simp [osRemove, hfile, hrm]
      have hdel' : storageDelete env st.storage e.url =
          .ok (delete_by_key_url st.storage e.url) := by
        simp [storageDelete, hdel]
      have hstep : Cache.download env now expiry urls false st =
          downloadAndStore env now urls
            { st with storage := delete_by_key_url st.storage e.url,
                      fs := st.fs.filter (· ≠ e.file_path) } := by
        rw [Cache.download]
        simp only [Bool.false_eq_true, if_false, hfound, hstale, if_true]
        rw [hrm', hdel']
      rw [hstep, downloadAndStore,
          dlh_all_fail env urls _ hfail]

/-- Witness for C4 on the stale-hit path: the expired entry for `"u"` is
evicted, the only mirror then fails, the call errors and nothing is
stored. -/
theorem download_all_mirrors_exhausted_witness :
    ∃ s' fs', List.Sublist s' stC2.storage ∧
      Cache.download envNone 100 (some 10) ["u"] false stC2 =
        (.error .downloadFailed,
         { stC2 with storage := s', fs := fs', warnings := ["u"],
                     attempts := 1 }) :=
  download_all_mirrors_exhausted envNone 100 (some 10) ["u"] false stC2
    (by decide)
    (Or.inr (Or.inr ⟨entC2, by decide, by decide, by decide, by decide,
      by decide⟩))

/-- C5: with `redownload = true` the Storage Provider is neither written
(final storage equals the initial one) nor read (the outcome and the
filesystem are the same whatever the storage contains), and for a
non-empty URL list a network fetch is attempted regardless of any valid
cache hit. -/
theorem download_redownload_bypass (env : Env) (now : Int)
    (expiry : Option Int) (urls : List String) (st : CacheState)
    (s₂ : Storage) :
    (Cache.download env now expiry urls true st).2.storage = st.storage
    ∧ (Cache.download env now expiry urls true { st with storage := s₂ }).1
        = (Cache.download env now expiry urls true st).1
    ∧ (Cache.download env now expiry urls true { st with storage := s₂ }).2.fs
        = (Cache.download env now expiry urls true st).2.fs
    ∧ (urls ≠ [] →
        st.attempts < (Cache.download env now expiry urls true st).2.attempts)
    := by
  refine ⟨?_, ?_, ?_, ?_⟩
  · rw [download_true_eq]
    exact dlh_storage_unchanged env urls st
  · rw [download_true_eq, download_true_eq, dlh_storage_set]
  · rw [download_true_eq, download_true_eq, dlh_storage_set]
  · intro hne
    cases urls with
    | nil => exact absurd rfl hne
    | cons u rest =>
      rw [download_true_eq]
      exact dlh_attempts_lt env u rest st

/-- Witness for C5: a fresh hit for `"u"` exists, yet the redownload call
fetches anyway and leaves the storage as it was. -/
theorem download_redownload_bypass_witness :
    (Cache.download envUP 0 (some 10) ["u"] true stC2).2.storage = stC2.storage
    ∧ stC2.attempts <
        (Cache.download envUP 0 (some 10) ["u"] true stC2).2.attempts :=
  ⟨(download_redownload_bypass envUP 0 (some 10) ["u"] stC2 []).1,
   (download_redownload_bypass envUP 0 (some 10) ["u"] stC2 []).2.2.2
     (by decide)⟩

/-- C7: `get_by_hash` is a pure pass-through of
`find_by_key('file_hash', ...)`: any entry it returns is a stored entry
with the requested hash, an unknown hash yields `none`, and the result
is independent of the entries' ages — rewriting every `time` field
commutes with the lookup, so no expiry check is applied; being a pure
function of the storage it deletes nothing and touches no network. -/
theorem get_by_hash_pass_through (s : Storage) (sha : String) :
    get_by_hash s sha = find_by_key_hash s sha
    ∧ (∀ e, get_by_hash s sha = some e → e ∈ s ∧ e.file_hash = sha)
    ∧ ((∀ e ∈ s, e.file_hash ≠ sha) → get_by_hash s sha = none)
    ∧ ∀ f : Int → Int,
        get_by_hash (s.map fun e => { e with time := f e.time }) sha
          = (get_by_hash s sha).map fun e => { e with time := f e.time } := by
  refine ⟨rfl, ?_, ?_, ?_⟩
  · intro e he
    have hm := List.mem_of_find?_eq_some he
    have hp := List.find?_some he
    simp at hp
    exact ⟨hm, hp⟩
  · intro hnone
    unfold get_by_hash find_by_key_hash
    rw [List.find?_eq_none]
    intro e he
    simp [hnone e he]
  · intro f
    unfold get_by_hash find_by_key_hash
    rw [List.find?_map]
    rfl

/-- Witness for C7: concrete hit and miss on a one-entry store. -/
theorem get_by_hash_pass_through_witness :
    get_by_hash [entW1] "hash1" = find_by_key_hash [entW1] "hash1"
    ∧ get_by_hash [entW1] "nope" = none :=
  ⟨(get_by_hash_pass_through [entW1] "hash1").1,
   (get_by_hash_pass_through [entW1] "nope").2.2.1 (by decide)⟩

/-- C10: calling `download` with a bare string behaves identically to
calling it with the corresponding one-element list — the argument is
normalised to a singleton candidate list before any cache or download
logic runs. -/
theorem download_string_normalisation (env : Env) (now : Int)
    (expiry : Option Int) (s : String) (r : Bool) (st : CacheState) :
    downloadArg env now expiry (.single s) r st
      = downloadArg env now expiry (.many [s]) r st := rfl

/-- C2 fails as stated: after a stale hit for `"u"` (entry fetched at
time 0, expiry 10, now 100) the old file `"p"` and the entry are indeed
deleted and a fresh download is performed — but the fresh download may
be written to the freed name, so the old path exists again when the call
returns: here the final filesystem still contains `"p"`. -/
theorem download_stale_old_path_reappears :
    (Cache.download envUP 100 (some 10) ["u"] false stC2).1 = .ok "p"
    ∧ entC2.file_path ∈
        (Cache.download envUP 100 (some 10) ["u"] false stC2).2.fs := by
  exact ⟨rfl, by decide⟩

/-- C2 (amended): a matching entry whose age strictly exceeds the
configured expiry has its backing file deleted and its entry deleted
from the Storage Provider keyed by its own `url`; the stale path is not
returned — instead a fresh download runs and its path is returned and
persisted. The old path no longer exists afterwards provided the fresh
download's destination differs from it (the fallback may legitimately
reuse the just-freed filename, in which case the old path names the
newly downloaded file). -/
theorem download_stale_hit_evicts (env : Env) (now d : Int)
    (urls : List String) (st st₂ : CacheState) (e : CacheEntry)
    (p h u : String)
    (hfound : lookupFirst st.storage urls = some e)
    (hstale : isStale (some d) now e.time = true)
    (hfile : e.file_path ∈ st.fs)
    (hrm : env.removeOk e.file_path = true)
    (hdel : env.deleteOk e.url = true)
    (hdl : _download_and_hash env urls
        { st with storage := delete_by_key_url st.storage e.url,
                  fs := st.fs.filter (· ≠ e.file_path) }
        = (.ok (p, h, u), st₂)) :
    Cache.download env now (some d) urls false st =
      (.ok p, { st₂ with storage := st₂.storage ++
          [{ file_hash := h, file_path := p, url := u, time := now }] })
    ∧ st₂.storage = delete_by_key_url st.storage e.url
    ∧ (p ≠ e.file_path → e.file_path ∉ st₂.fs) := by
  have hstorage : st₂.storage = delete_by_key_url st.storage e.url := by
    have := dlh_storage_unchanged env urls
      { st with storage := delete_by_key_url st.storage e.url,
                fs := st.fs.filter (· ≠ e.file_path) }
    rw [hdl] at this
    exact this
  have hrm' : osRemove env st.fs e.file_path =
      .ok (st.fs.filter (· ≠ e.file_path)) := by
    simp [osRemove, hfile, hrm]
  have hdel' : storageDelete env st.storage e.url =
      .ok (delete_by_key_url st.storage e.url) := by
    simp [storageDelete, hdel]
  refine ⟨?_, hstorage, ?_⟩
  · have hstep : Cache.download env now (some d) urls false st =
        downloadAndStore env now urls
          { st with storage := delete_by_key_url st.storage e.url,
                    fs := st.fs.filter (· ≠ e.file_path) } := by
      rw [Cache.download]
      simp only [Bool.false_eq_true, if_false, hfound, hstale, if_true]
      rw [hrm', hdel']
    rw [hstep, downloadAndStore, hdl]
  · intro hne
    obtain ⟨pre, rest, _, _, _, hst₂⟩ := dlh_ok_inv hdl
    rw [hst₂]
    intro hmem
    simp only [List.mem_append, List.mem_filter, List.mem_singleton] at hmem
    rcases hmem with ⟨_, hbad⟩ | hbad
    · simp at hbad
    · exact hne hbad.symm

/-- Witness for the amended C2: the stale file `"p"` is evicted and
`"u"` is freshly downloaded to the distinct path `"p2"`, after which
`"p"` no longer exists. -/
theorem download_stale_hit_evicts_witness :
    Cache.download envUP2 100 (some 10) ["u"] false stC2 =
      (.ok "p2", { stMidC2 with storage :=
          [{ file_hash := "h2", file_path := "p2", url := "u",
             time := 100 }] })
    ∧ ("p" : String) ∉ stMidC2.fs := by
  have hthm := download_stale_hit_evicts envUP2 100 10 ["u"] stC2 stMidC2
    entC2 "p2" "h2" "u" (by decide) (by decide) (by decide) (by decide)
    (by decide) (by rfl)
  exact ⟨hthm.1, hthm.2.2 (by decide)⟩

/-- C6: under the entry/file coupling invariant (every stored entry's
`file_path` exists on the filesystem), any call to `download` that
returns a path returns one that exists on the filesystem at the moment
of return — either the cached file or the one just downloaded and
hashed by this call. -/
theorem download_returns_existing_path (env : Env) (now : Int)
    (expiry : Option Int) (urls : List String) (redownload : Bool)
    (st st' : CacheState) (p : String)
    (hinv : ∀ e ∈ st.storage, e.file_path ∈ st.fs)
    (hok : Cache.download env now expiry urls redownload st = (.ok p, st')) :
    p ∈ st'.fs := by
  cases redownload with
  | true =>
    rw [download_true_eq] at hok
    rcases hd : _download_and_hash env urls st with ⟨res, stx⟩
    rw [hd] at hok
    cases res with
    | error e => simp [Except.map] at hok
    | ok t =>
      rcases t with ⟨p', h, u⟩
      have h1 := congrArg Prod.fst hok
      have h2 := congrArg Prod.snd hok
      simp [Except.map] at h1 h2
      subst h1
      obtain ⟨pre, rest, _, _, _, hstx⟩ := dlh_ok_inv hd
      rw [← h2, hstx]
      simp
  | false =>
    rw [Cache.download] at hok
    simp only [Bool.false_eq_true, if_false] at hok
    rcases hl : lookupFirst st.storage urls with _ | e
    · simp only [hl] at hok
      obtain ⟨h, u, pre, rest, _, _, _, hst'⟩ := dls_ok_inv hok
      rw [hst']
      simp
    · simp only [hl] at hok
      cases hstale : isStale expiry now e.time with
      | false =>
        simp only [hstale, Bool.false_eq_true, if_false] at hok
        have h1 := congrArg Prod.fst hok
        have h2 := congrArg Prod.snd hok
        simp at h1 h2
        rw [← h2, ← h1]
        exact hinv e (lookupFirst_mem hl).1
      | true =>
        simp only [hstale, if_true] at hok
        rcases hrm : osRemove env st.fs e.file_path with fault | fs'
        · simp only [hrm] at hok
          simp at hok
        · simp only [hrm] at hok
          rcases hsd : storageDelete env st.storage e.url with fault | s'
          · simp only [hsd] at hok
            simp at hok
          · simp only [hsd] at hok
            obtain ⟨h, u, pre, rest, _, _, _, hst'⟩ := dls_ok_inv hok
            rw [hst']
            simp

/-- Witness for C6: the fresh-hit call on `stW1` returns `"path1"`,
which is on the filesystem. -/
theorem download_returns_existing_path_witness :
    ("path1" : String) ∈ stW1.fs :=
  download_returns_existing_path envNone 5 (some 10) ["urlA"] false
    stW1 stW1 "path1" (by decide) (by rfl)

/-- C8: starting from a state with no entry for any candidate URL, a
successful non-redownload call followed by a second non-redownload call
with the same URL list and no intervening expiry returns the identical
path both times, the second call changes nothing (it is a pure cache
read: in particular the Downloader counters are unchanged), and exactly
one download completed across the two calls. -/
theorem download_idempotent (env : Env) (now₁ now₂ : Int)
    (expiry : Option Int) (urls : List String) (st st₁ : CacheState)
    (p : String)
    (hmiss : lookupFirst st.storage urls = none)
    (h₁ : Cache.download env now₁ expiry urls false st = (.ok p, st₁))
    (hfresh : isStale expiry now₂ now₁ = false) :
    Cache.download env now₂ expiry urls false st₁ = (.ok p, st₁)
    ∧ st₁.successes = st.successes + 1 := by
  rw [Cache.download] at h₁
  simp only [Bool.false_eq_true, if_false, hmiss] at h₁
  obtain ⟨h, u, pre, rest, hurls, hpre, hu, hst₁⟩ := dls_ok_inv h₁
  have humem : u ∈ urls := by rw [hurls]; simp
  have hfoundnew : lookupFirst st₁.storage urls =
      some { file_hash := h, file_path := p, url := u, time := now₁ } := by
    have : st₁.storage = st.storage ++
        [{ file_hash := h, file_path := p, url := u, time := now₁ }] := by
      rw [hst₁]
    rw [this]
    exact lookupFirst_append_of_none hmiss humem
  constructor
  · rw [Cache.download]
    simp only [Bool.false_eq_true, if_false, hfoundnew, hfresh, if_false]
  · rw [hst₁]

/-- Witness for C8: after downloading `"u"` once at time 0, a second
call at time 5 (expiry 10) is a pure cache read returning `"p"`. -/
theorem download_idempotent_witness :
    Cache.download envUP 5 (some 10) ["u"] false stAfterU =
      (.ok "p", stAfterU)
    ∧ stAfterU.successes = st0.successes + 1 :=
  download_idempotent envUP 0 5 (some 10) ["u"] st0 stAfterU "p"
    (by decide) (by rfl) (by decide)

/-- C9: when expiry-triggered eviction fails partway — the file delete
raises, or the file delete succeeds and the entry delete raises — the
fault propagates to the caller as the corresponding distinguishable
error (an `OSError` from `os.remove` or the Storage Provider fault, not
the exhausted-mirrors error and not a swallowed warning), and in
particular the stale path is not returned. -/
theorem download_eviction_fault_surfaced (env : Env) (now d : Int)
    (urls : List String) (st : CacheState) (e : CacheEntry)
    (hfound : lookupFirst st.storage urls = some e)
    (hstale : isStale (some d) now e.time = true)
    (hfault : ¬(e.file_path ∈ st.fs ∧ env.removeOk e.file_path = true)
              ∨ env.deleteOk e.url = false) :
    (Cache.download env now (some d) urls false st).1 =
        .error (.removeFailed e.file_path)
    ∨ (Cache.download env now (some d) urls false st).1 =
        .error (.storageDeleteFailed e.url) := by
  rw [Cache.download]
  simp only [Bool.false_eq_true, if_false, hfound, hstale, if_true]
  by_cases hrm : e.file_path ∈ st.fs ∧ env.removeOk e.file_path = true
  · rcases hfault with hbad | hdel
    · exact absurd hrm hbad
    · right
      have hrm' : osRemove env st.fs e.file_path =
          .ok (st.fs.filter (· ≠ e.file_path)) := by
        simp [osRemove, hrm.1, hrm.2]
      have hdel' : storageDelete env st.storage e.url =
          .error (.storageDeleteFailed e.url) := by
        simp [storageDelete, hdel]
      rw [hrm', hdel']
  · left
    have hrm' : osRemove env st.fs e.file_path =
        .error (.removeFailed e.file_path) := by
      simp only [osRemove, if_neg hrm]
    rw [hrm']

/-- Witness for C9: the Storage Provider's delete faults during eviction
and the call surfaces that fault instead of the stale path. -/
theorem download_eviction_fault_surfaced_witness :
    (Cache.download envDel 100 (some 10) ["u"] false stC2).1 =
        .error (.removeFailed "p")
    ∨ (Cache.download envDel 100 (some 10) ["u"] false stC2).1 =
        .error (.storageDeleteFailed "u") :=
  download_eviction_fault_surfaced envDel 100 10 ["u"] stC2 entC2
    (by decide) (by decide) (Or.inr (by decide))

end SunpyCache
